import Mathlib

/-!
Verification of the golf-coach backend service against its specification.

The development shallowly embeds the Python source (`app/services/claude_service.py`,
`app/services/swing_service.py`, `app/routers/swings.py`, `app/routers/debug.py`,
`app/utils/image_utils.py`, `app/utils/debug_logger.py`, `app/config.py`) as
executable Lean definitions, and proves the specification's claims about them.

Strings are modelled as `List Char` internally (ASCII; Python's `\d` and `\s`
classes are modelled by their ASCII subsets, which is exact for the inputs the
service handles). Python's `re.search` on the concrete patterns appearing in
the source is embedded by hand-compiled backtracking matchers that follow the
engine's semantics: leftmost starting position, ordered alternation, lazy
star extends one character at a time, greedy repetition backtracks from the
longest extent.
-/

namespace GolfCoach

/-- ASCII decimal digit, the ASCII part of Python's `\d`. -/
def isDig (c : Char) : Bool := '0' ≤ c && c ≤ '9'

/-- ASCII whitespace, Python's `\s` / `str.strip` class restricted to ASCII. -/
def isPySpace (c : Char) : Bool :=
  c = ' ' || c = '\t' || c = '\n' || c = '\x0d' || c = '\x0b' || c = '\x0c'

/-- Python `str.strip()`: remove leading and trailing whitespace. -/
def pyStrip (l : List Char) : List Char :=
  ((l.dropWhile isPySpace).reverse.dropWhile isPySpace).reverse

/-- Python `str.split('\n')`: split on newlines, keeping empty pieces. -/
def splitNl : List Char → List (List Char)
  | [] => [[]]
  | c :: rest =>
    match splitNl rest with
    | r :: rs => if c = '\n' then [] :: r :: rs else (c :: r) :: rs
    | [] => [[]]

/-- `pat` occurs at the start of `l`. -/
def beginsWith : List Char → List Char → Bool
  | [], _ => true
  | _ :: _, [] => false
  | p :: ps, c :: cs => p = c && beginsWith ps cs

/-- `pat` occurs somewhere inside `l` (substring containment). -/
def occursIn (pat : List Char) : List Char → Bool
  | [] => beginsWith pat []
  | c :: cs => beginsWith pat (c :: cs) || occursIn pat cs

/-- Substring containment lifted to `String`. -/
def containsStr (s pat : String) : Bool := occursIn pat.data s.data

/-- Case-insensitive match of the literal `pat` at the start of `l`;
on success returns the remainder of `l`.  Embeds a literal alternative of a
pattern compiled with `re.IGNORECASE`. -/
def stripCI : List Char → List Char → Option (List Char)
  | [], l => some l
  | _ :: _, [] => none
  | p :: ps, c :: cs => if p.toLower = c.toLower then stripCI ps cs else none

/-- Numeric value of a digit string; the value Python's `int()` gives a
string of decimal digits. -/
def digitsToNat (ds : List Char) : Nat :=
  ds.foldl (fun a c => a * 10 + (c.toNat - 48)) 0

/-- Python `int(s)` as a fallible operation: succeeds exactly on nonempty
all-digit strings (the only shape ever captured by the rating patterns),
raises `ValueError` otherwise. -/
def pyInt (ds : List Char) : Except String Nat :=
  if ds ≠ [] ∧ ds.all isDig then .ok (digitsToNat ds) else .error "invalid literal for int"

/-! ## Backtracking regex combinators

Each combinator takes the continuation of the pattern as a function
`List Char → Option α`; `none` makes the combinator backtrack. -/

/-- `re.search` driver: try the pattern at each start position, leftmost first. -/
def reSearch (tryAt : List Char → Option α) : List Char → Option α
  | [] => tryAt []
  | c :: cs =>
    match tryAt (c :: cs) with
    | some r => some r
    | none => reSearch tryAt cs

/-- Lazy `.*?` without `re.DOTALL`: extend one non-newline character at a
time, preferring the shortest extent for which the continuation succeeds. -/
def lazyStarNoNl (tail : List Char → Option α) : List Char → Option α
  | [] => tail []
  | c :: cs =>
    match tail (c :: cs) with
    | some r => some r
    | none => if c = '\n' then none else lazyStarNoNl tail cs

/-- Lazy `.*?` with `re.DOTALL`: same, but any character may be consumed. -/
def lazyStarAny (tail : List Char → Option α) : List Char → Option α
  | [] => tail []
  | c :: cs =>
    match tail (c :: cs) with
    | some r => some r
    | none => lazyStarAny tail cs

/-- Greedy `(\d+)` followed by a suffix test: Python first consumes the whole
digit run and backtracks one digit at a time, needing at least one digit.
`run`/`rest` are the digit run at the current position and what follows it;
the capture is the consumed prefix of the run. -/
def digitBacktrack (run rest : List Char) (suffix : List Char → Bool) : Nat → Option (List Char)
  | 0 => none
  | k + 1 =>
    if suffix (run.drop (k + 1) ++ rest) then some (run.take (k + 1))
    else digitBacktrack run rest suffix k

/-- `(\d+)` with its following context, returning the captured digit string. -/
def digitPlus (suffix : List Char → Bool) (l : List Char) : Option (List Char) :=
  let run := l.takeWhile isDig
  digitBacktrack run (l.dropWhile isDig) suffix run.length

/-- The suffix `(?:/10|\s*out\s*of\s*10)` of the first and third rating
patterns.  The alternation is ordered; each `\s*` is followed by a
non-whitespace, non-digit literal, so greedy whitespace munching never needs
to backtrack. -/
def suffixOutOf10 (l : List Char) : Bool :=
  beginsWith "/10".data l ||
    (match stripCI "out".data (l.dropWhile isPySpace) with
     | none => false
     | some l2 =>
       match stripCI "of".data (l2.dropWhile isPySpace) with
       | none => false
       | some l3 => beginsWith "10".data (l3.dropWhile isPySpace))

/-- Keyword alternative: match `kw` case-insensitively here, then run the rest. -/
def kwThen (kw : String) (rest : List Char → Option α) (l : List Char) : Option α :=
  match stripCI kw.data l with
  | some l' => rest l'
  | none => none

/-- Body of rating pattern 1, `(?:rate|rating|score).*?(\d+)(?:/10|\s*out\s*of\s*10)`,
tried at one start position (alternatives in source order). -/
def tryAtRating1 (l : List Char) : Option (List Char) :=
  match kwThen "rate" (lazyStarNoNl (digitPlus suffixOutOf10)) l with
  | some r => some r
  | none =>
    match kwThen "rating" (lazyStarNoNl (digitPlus suffixOutOf10)) l with
    | some r => some r
    | none => kwThen "score" (lazyStarNoNl (digitPlus suffixOutOf10)) l

/-- Body of rating pattern 2, `(\d+)/10`, tried at one start position. -/
def tryAtRating2 (l : List Char) : Option (List Char) :=
  digitPlus (beginsWith "/10".data) l

/-- Body of rating pattern 3, `(?:quality|overall).*?(\d+)(?:/10|\s*out\s*of\s*10)`,
tried at one start position. -/
def tryAtRating3 (l : List Char) : Option (List Char) :=
  match kwThen "quality" (lazyStarNoNl (digitPlus suffixOutOf10)) l with
  | some r => some r
  | none => kwThen "overall" (lazyStarNoNl (digitPlus suffixOutOf10)) l

/-- `re.search` of the three `rating_patterns` of `parse_analysis`, in source
order, each returning the group-1 capture. -/
def ratingSearches : List (List Char → Option (List Char)) :=
  [reSearch tryAtRating1, reSearch tryAtRating2, reSearch tryAtRating3]

/-- The rating-extraction loop of `parse_analysis`
(`app/services/claude_service.py`): for each pattern in order, search; on a
match convert the capture with `int` (fallible), keep it if it lies in
`[1,10]`, otherwise reset to `None` and continue with the next pattern. -/
def ratingLoop (text : List Char) : List (List Char → Option (List Char)) → Except String (Option Nat)
  | [] => .ok none
  | p :: ps =>
    match p text with
    | none => ratingLoop text ps
    | some cap =>
      match pyInt cap with
      | .error e => .error e
      | .ok n => if 1 ≤ n ∧ n ≤ 10 then .ok (some n) else ratingLoop text ps

/-- Lazy `(.+?)` with `re.DOTALL` followed by a terminator test: consume at
least one character, check the terminator after each extent, shortest first.
Returns the length of the capture. -/
def lazyCapLen (term : List Char → Bool) : Nat → List Char → Option Nat
  | _, [] => none
  | k, _ :: rest => if term rest then some (k + 1) else lazyCapLen term (k + 1) rest

/-- `(.+?)` capturing: run `lazyCapLen` and return the captured characters. -/
def lazyCap (term : List Char → Bool) (l : List Char) : Option (List Char) :=
  (lazyCapLen term 0 l).map (l.take ·)

/-- Greedy `\s*` before a capture, with backtracking from the longest
whitespace run down to the empty one. -/
def wsBacktrack (cap : List Char → Option α) (l : List Char) : Nat → Option α
  | 0 => cap l
  | k + 1 =>
    match cap (l.drop (k + 1)) with
    | some r => some r
    | none => wsBacktrack cap l k

/-- `\s*` (greedy, backtracking) followed by `cap`. -/
def wsGreedy (cap : List Char → Option α) (l : List Char) : Option α :=
  wsBacktrack cap l (l.takeWhile isPySpace).length

/-- Terminator `(?:\n\n|\n2\.)` of the first summary pattern. -/
def term1 (l : List Char) : Bool :=
  beginsWith "\n\n".data l || beginsWith "\n2.".data l

/-- Terminator `(?:\n\n|\n)` of the second and third summary patterns. -/
def term2 (l : List Char) : Bool :=
  beginsWith "\n\n".data l || beginsWith "\n".data l

/-- `-\s*(.+?)(?:\n\n|\n2\.)` : the tail of summary pattern 1 after the lazy gap. -/
def dashTail (l : List Char) : Option (List Char) :=
  match l with
  | '-' :: rest => wsGreedy (lazyCap term1) rest
  | _ => none

/-- `:\s*(.+?)(?:\n\n|\n)` : the tail of summary patterns 2 and 3. -/
def colonTail (l : List Char) : Option (List Char) :=
  match l with
  | ':' :: rest => wsGreedy (lazyCap term2) rest
  | _ => none

/-- Body of summary pattern 1, `OVERALL ASSESSMENT.*?-\s*(.+?)(?:\n\n|\n2\.)`
(compiled with `re.IGNORECASE | re.DOTALL`), at one start position. -/
def tryAtSummary1 (l : List Char) : Option (List Char) :=
  kwThen "OVERALL ASSESSMENT" (lazyStarAny dashTail) l

/-- Body of summary pattern 2, `overall.*?summary.*?:\s*(.+?)(?:\n\n|\n)`,
at one start position. -/
def tryAtSummary2 (l : List Char) : Option (List Char) :=
  kwThen "overall" (lazyStarAny (kwThen "summary" (lazyStarAny colonTail))) l

/-- Body of summary pattern 3, `summary.*?:\s*(.+?)(?:\n\n|\n)`, at one start
position. -/
def tryAtSummary3 (l : List Char) : Option (List Char) :=
  kwThen "summary" (lazyStarAny colonTail) l

/-- `re.search` of the three `summary_patterns` of `parse_analysis`, in source
order. -/
def summarySearches : List (List Char → Option (List Char)) :=
  [reSearch tryAtSummary1, reSearch tryAtSummary2, reSearch tryAtSummary3]

/-- The 500-character cap of `parse_analysis`:
`if len(summary) > 500: summary = summary[:497] + "..."`. -/
def truncate500 (s : List Char) : List Char :=
  if 500 < s.length then s.take 497 ++ "...".data else s

/-- The summary-extraction loop of `parse_analysis`: first matching pattern
wins; its capture is stripped and capped at 500 characters. -/
def summaryLoop (text : List Char) : List (List Char → Option (List Char)) → Option (List Char)
  | [] => none
  | p :: ps =>
    match p text with
    | some cap => some (truncate500 (pyStrip cap))
    | none => summaryLoop text ps

/-- The `parse_analysis` fallback: first three lines that are nonempty after
stripping and do not start with `#`, joined with spaces, capped at 500. -/
def summaryFallback (text : List Char) : Option (List Char) :=
  let content := (splitNl text).filter
    (fun line => pyStrip line ≠ [] ∧ ¬ beginsWith "#".data (pyStrip line))
  match content with
  | [] => none
  | _ :: _ => some (truncate500 (List.intercalate " ".data (content.take 3)))

/-- Summary extraction of `parse_analysis` including the `if not summary`
fallback (Python treats both `None` and the empty string as "no summary"). -/
def extractSummaryL (text : List Char) : Option (List Char) :=
  match summaryLoop text summarySearches with
  | some cap =>
    if cap = [] then
      match summaryFallback text with
      | some f => some f
      | none => some []
    else some cap
  | none => summaryFallback text

/-- `ClaudeService.parse_analysis` with the body's fallible operations made
explicit (`pyInt` is the only primitive that can raise; summary extraction is
total).  A raised error is what the source's `except` clause would swallow. -/
def parse_analysis_exc (text : List Char) : Except String (Option Nat × Option (List Char)) :=
  match ratingLoop text ratingSearches with
  | .error e => .error e
  | .ok rating => .ok (rating, extractSummaryL text)

/-- `ClaudeService.parse_analysis` (`app/services/claude_service.py`): returns
`(rating, summary)`; any exception inside the body is swallowed.  At the only
fallible primitive (`int` on a capture) both locals still hold `None`, so the
handler's `return rating, summary` yields `(none, none)`. -/
def parse_analysis (text : String) : Option Nat × Option String :=
  match parse_analysis_exc text.data with
  | .ok (r, s) => (r, s.map (fun l => String.mk l))
  | .error _ => (none, none)

/-- The rating component of `parse_analysis`. -/
def extractRating (text : String) : Option Nat := (parse_analysis text).1

/-- The summary component of `parse_analysis`. -/
def extractSummary (text : String) : Option String := (parse_analysis text).2

/-! ## Prompt builder (`ClaudeService._build_analysis_prompt`) -/

/-- The per-request annotation context dictionary built by the route
(`club`, `shot_outcome`, `focus_area`, `notes`; all optional). -/
structure AnnotationContext where
  club : Option String
  shot_outcome : Option String
  focus_area : Option String
  notes : Option String

/-- Python truthiness of an optional string: `None` and `""` are falsy. -/
def truthyStr : Option String → Bool
  | none => false
  | some s => s ≠ ""

/-- One bullet of the CONTEXT section, when the field is truthy. -/
def ctxPart (render : String → String) : Option String → List String
  | none => []
  | some s => if s = "" then [] else [render s]

/-- The `context_parts` list of `_build_analysis_prompt`, in source order. -/
def contextParts (ctx : AnnotationContext) : List String :=
  ctxPart (fun s => "The golfer is using a " ++ s) ctx.club ++
  ctxPart (fun s => "The shot outcome was: " ++ s) ctx.shot_outcome ++
  ctxPart (fun s => "They were working on: " ++ s) ctx.focus_area ++
  ctxPart (fun s => "Additional context: " ++ s) ctx.notes

/-- The `context_section` string of `_build_analysis_prompt`. -/
def contextSection (ctx : Option AnnotationContext) : String :=
  match ctx with
  | none => ""
  | some c =>
    let parts := contextParts c
    if parts = [] then ""
    else "\n\nCONTEXT:\n" ++ String.intercalate "\n" (parts.map (fun p => "- " ++ p))

/-- Calendar date of a record's `created_at` timestamp, as far as
`strftime("%B %d, %Y")` renders it. -/
structure PyDate where
  year : Nat
  month : Nat
  day : Nat

/-- `%B`: full month name. -/
def monthName : Nat → String
  | 1 => "January" | 2 => "February" | 3 => "March" | 4 => "April"
  | 5 => "May" | 6 => "June" | 7 => "July" | 8 => "August"
  | 9 => "September" | 10 => "October" | 11 => "November" | 12 => "December"
  | _ => ""

/-- `%d`: zero-padded day of month. -/
def pad2 (n : Nat) : String := if n < 10 then "0" ++ Nat.repr n else Nat.repr n

/-- `created_at.strftime("%B %d, %Y")`. -/
def strftimeBdY (d : PyDate) : String :=
  monthName d.month ++ " " ++ pad2 d.day ++ ", " ++ Nat.repr d.year

/-- A prior `Swing` record as the prompt builder consumes it. -/
structure HistSwing where
  created_at : PyDate
  rating : Option Nat
  club : Option String
  shot_outcome : Option String
  summary : Option String

/-- Python truthiness of the optional integer rating: `None` and `0` are falsy. -/
def truthyNat : Option Nat → Bool
  | none => false
  | some n => n ≠ 0

/-- `rating_info`: `f"Rating: {rating}/10"` when the rating is truthy,
otherwise `"Not rated"`. -/
def ratingInfo (r : Option Nat) : String :=
  match r with
  | some n => if n ≠ 0 then "Rating: " ++ Nat.repr n ++ "/10" else "Not rated"
  | none => "Not rated"

/-- The truncated history summary (`[:100] + "..."` when longer than 100,
`"No summary"` when absent or empty). -/
def historySummary (s : Option String) : String :=
  match s with
  | some t =>
    if t ≠ "" ∧ 100 < t.length then String.mk (t.data.take 100) ++ "..."
    else if t = "" then "No summary" else t
  | none => "No summary"

/-- `club_info`: `f", Club: {club}"` when truthy, else empty. -/
def histClubInfo (c : Option String) : String :=
  match c with
  | some s => if s ≠ "" then ", Club: " ++ s else ""
  | none => ""

/-- `outcome_info`: `f", Outcome: {shot_outcome}"` when truthy, else empty. -/
def histOutcomeInfo (o : Option String) : String :=
  match o with
  | some s => if s ≠ "" then ", Outcome: " ++ s else ""
  | none => ""

/-- The two `history_lines` entries for one prior swing (1-based index `i`). -/
def historyEntryLines (i : Nat) (s : HistSwing) : List String :=
  [Nat.repr i ++ ". Swing from " ++ strftimeBdY s.created_at ++ ": " ++
     ratingInfo s.rating ++ histClubInfo s.club ++ histOutcomeInfo s.shot_outcome,
   "   Summary: " ++ historySummary s.summary]

/-- The `history_section` string of `_build_analysis_prompt`. -/
def historySection (history : List HistSwing) : String :=
  match history with
  | [] => ""
  | _ :: _ => String.intercalate "\n"
    ("\n\nPREVIOUS SWING HISTORY:" ::
      (List.enumFrom 1 history).flatMap (fun p => historyEntryLines p.1 p.2))

/-- The `comparison_instructions` literal, included iff history is nonempty. -/
def comparisonInstructions (history : List HistSwing) : String :=
  match history with
  | [] => ""
  | _ :: _ => "\n\n5. PROGRESSION ANALYSIS (Compare to previous swings)\n   - What has improved since last time?\n   - What issues are recurring across multiple swings?\n   - What new issues have appeared?\n   - Is the golfer progressing on what they said they were working on?\n   - Provide specific feedback based on their progression pattern"

/-- `ClaudeService._build_analysis_prompt` (`app/services/claude_service.py`):
the full prompt f-string. -/
def build_analysis_prompt (positions : List String) (ctx : Option AnnotationContext)
    (history : List HistSwing) : String :=
  let positions_str := String.intercalate ", " positions
  "You are an expert golf instructor analyzing swing images. I'm providing " ++
  Nat.repr positions.length ++
  " image(s) showing the following swing position(s): " ++ positions_str ++ "." ++
  contextSection ctx ++ historySection history ++
  "\n\nPlease provide a comprehensive analysis with the following structure:\n\n1. OVERALL ASSESSMENT\n   - Rate the swing quality on a scale of 1-10\n   - Provide a 2-3 sentence summary of the overall swing\n\n2. POSITION ANALYSIS\n   For each image provided (" ++
  positions_str ++
  "), analyze:\n   - Key observations (posture, alignment, club position, body mechanics)\n   - What's being done well\n   - What needs improvement\n\n3. SPECIFIC ISSUES\n   List 2-4 specific technical problems in order of priority (most important first)\n\n4. RECOMMENDATIONS\n   Provide 3-4 actionable drills or changes to improve the swing" ++
  comparisonInstructions history ++
  "\n\nPlease be specific, constructive, and focus on the most impactful improvements. Factor in the context and progression from previous swings when providing your analysis."

/-- Decomposition helper: the prompt text strictly before the progression
slot (everything `build_analysis_prompt` emits before
`comparison_instructions` is interpolated). -/
def promptBeforeProgression (positions : List String) (ctx : Option AnnotationContext)
    (history : List HistSwing) : String :=
  let positions_str := String.intercalate ", " positions
  "You are an expert golf instructor analyzing swing images. I'm providing " ++
  Nat.repr positions.length ++
  " image(s) showing the following swing position(s): " ++ positions_str ++ "." ++
  contextSection ctx ++ historySection history ++
  "\n\nPlease provide a comprehensive analysis with the following structure:\n\n1. OVERALL ASSESSMENT\n   - Rate the swing quality on a scale of 1-10\n   - Provide a 2-3 sentence summary of the overall swing\n\n2. POSITION ANALYSIS\n   For each image provided (" ++
  positions_str ++
  "), analyze:\n   - Key observations (posture, alignment, club position, body mechanics)\n   - What's being done well\n   - What needs improvement\n\n3. SPECIFIC ISSUES\n   List 2-4 specific technical problems in order of priority (most important first)\n\n4. RECOMMENDATIONS\n   Provide 3-4 actionable drills or changes to improve the swing"

/-- Decomposition helper: the fixed prompt text after the progression slot. -/
def promptClosing : String :=
  "\n\nPlease be specific, constructive, and focus on the most impactful improvements. Factor in the context and progression from previous swings when providing your analysis."

/-! ## Image validation and thumbnails (`app/utils/image_utils.py`, `app/config.py`) -/

/-- `settings.allowed_image_formats`. -/
def allowed_image_formats : List String := ["image/jpeg", "image/png", "image/jpg"]

/-- `settings.max_image_size_mb`. -/
def max_image_size_mb : Nat := 5

/-- An uploaded file as validation observes it: declared content type, byte
length, and whether PIL can decode the bytes (`Image.open` + `verify`). -/
structure Upload where
  content_type : String
  size : Nat
  decodable : Bool
deriving DecidableEq

/-- An HTTP error response (`HTTPException(status_code, detail)`). -/
structure HttpError where
  status_code : Nat
  detail : String
deriving DecidableEq

/-- The `InvalidFormat` detail string
(`f"Invalid image format. Allowed formats: {', '.join(...)}"`). -/
def invalidFormatDetail : String :=
  "Invalid image format. Allowed formats: image/jpeg, image/png, image/jpg"

/-- `f"{size/(1024*1024):.2f}"`: the size in megabytes with two decimals.
Rounding is modelled as round-half-to-even on hundredths of a megabyte, which
agrees with the source's float formatting on all sizes used here. -/
def fmt2MB (size : Nat) : String :=
  let den := 1024 * 1024
  let num := size * 100
  let q := num / den
  let r := num % den
  let q := if den < 2 * r ∨ (2 * r = den ∧ q % 2 = 1) then q + 1 else q
  Nat.repr (q / 100) ++ "." ++ pad2 (q % 100)

/-- The `TooLarge` detail string. -/
def tooLargeDetail (size : Nat) : String :=
  "Image size (" ++ fmt2MB size ++ "MB) exceeds maximum allowed size (5MB)"

/-- `validate_image` (`app/utils/image_utils.py`): content type against the
allow-list, then byte length against the 5MB ceiling, then PIL decodability;
the first failing check raises a 400.  (`size_mb > 5` on floats is exact for
all representable sizes, modelled as `5*1024*1024 < size` bytes.  The
decode-failure detail wraps `str(e)`; the PIL message is abstracted to a
fixed string, which no claim inspects.) -/
def validate_image (file : Upload) : Option HttpError :=
  if ¬ allowed_image_formats.contains file.content_type then
    some ⟨400, invalidFormatDetail⟩
  else if max_image_size_mb * 1024 * 1024 < file.size then
    some ⟨400, tooLargeDetail file.size⟩
  else if ¬ file.decodable then
    some ⟨400, "Invalid image file: cannot identify image file"⟩
  else none

/-- The external image operations `create_thumbnail` composes: base64 decode
plus `Image.open` (producing an opaque in-memory image, represented by a
`String` token), and `thumbnail` + `save` + re-encode.  Either may raise. -/
structure ThumbEnv where
  decode : String → Except String String
  resizeEncode : String → Except String String

/-- `create_thumbnail` (`app/utils/image_utils.py`): run decode then
resize/re-encode inside `try`; any exception falls into the `except` clause,
which returns the original base64 string. -/
def create_thumbnail (env : ThumbEnv) (base64_image : String) : String :=
  match env.decode base64_image >>= env.resizeEncode with
  | .ok thumb => thumb
  | .error _ => base64_image

/-! ## History store (`app/services/swing_service.py`, `app/routers/swings.py`) -/

/-- A persisted `Swing` row, as far as the listing claims observe it
(`created_at` is the server-assigned creation timestamp). -/
structure Swing where
  id : Nat
  created_at : Nat
  rating : Option Nat
  summary : Option String
deriving DecidableEq

/-- Insert into a list sorted by `created_at` descending. -/
def insertByCreatedDesc (s : Swing) : List Swing → List Swing
  | [] => [s]
  | t :: ts => if t.created_at ≤ s.created_at then s :: t :: ts else t :: insertByCreatedDesc s ts

/-- `ORDER BY created_at DESC` over the whole table. -/
def orderByCreatedDesc (db : List Swing) : List Swing :=
  db.foldr insertByCreatedDesc []

/-- `SwingService.get_all_swings`: `SELECT ... ORDER BY created_at DESC
LIMIT limit OFFSET offset` — after ordering, skip `offset` rows and return up
to `limit` rows. -/
def get_all_swings (db : List Swing) (limit offset : Nat) : List Swing :=
  ((orderByCreatedDesc db).drop offset).take limit

/-- The limit clamp of `get_swing_history` (`app/routers/swings.py`):
`if limit > 100: limit = 100` then `if limit < 1: limit = 1`. -/
def clampLimit (limit : Int) : Int :=
  let l := if 100 < limit then 100 else limit
  if l < 1 then 1 else l

/-- `GET /api/swings/history`: clamp the limit, then list.  (The route maps
each returned row 1-1 to a history item; the claims are about the rows.) -/
def get_swing_history (db : List Swing) (limit : Int) (offset : Nat) : List Swing :=
  get_all_swings db (clampLimit limit).toNat offset

/-! ## Trace recorder (`app/utils/debug_logger.py`, `app/routers/debug.py`) -/

/-- One entry of a session's `steps` list. -/
structure StepInfo where
  step_number : Nat
  step_name : String
  status : String
  duration_from_start_ms : Nat
  details : List (String × String)
  error : Option String
deriving DecidableEq

/-- One entry of a session's parallel `errors` list. -/
structure ErrorEntry where
  step : Nat
  step_name : String
  error : String
deriving DecidableEq

/-- The mutable state of one `DebugLogger` session (`steps_completed` models
`metadata["steps_completed"]`; times are wall-clock milliseconds). -/
structure LoggerState where
  request_id : String
  start_time : Nat
  steps : List StepInfo
  errors : List ErrorEntry
  steps_completed : Nat
deriving DecidableEq

/-- The fixed `STEPS` table (15 canonical labels). -/
def STEPS : Nat → Option String
  | 1 => some "User uploads images"
  | 2 => some "FRONTEND compresses images (2MB max)"
  | 3 => some "User adds annotations (club, outcome, focus, notes)"
  | 4 => some "Frontend sends FormData to BACKEND"
  | 5 => some "BACKEND validates images (5MB max, MIME types)"
  | 6 => some "BACKEND converts to base64 + detects formats"
  | 7 => some "BACKEND fetches last 3 swings from DATABASE"
  | 8 => some "BACKEND builds intelligent prompt with history"
  | 9 => some "BACKEND calls Claude API (Haiku model)"
  | 10 => some "CLAUDE analyzes swing + compares to history"
  | 11 => some "BACKEND parses response (extract rating + summary)"
  | 12 => some "BACKEND saves complete record to DATABASE"
  | 13 => some "BACKEND returns structured response to FRONTEND"
  | 14 => some "FRONTEND updates SwingContext state"
  | 15 => some "FRONTEND displays AnalysisResults component"
  | _ => none

/-- `self.STEPS.get(step_number, f"Unknown step {step_number}")`. -/
def stepName (n : Nat) : String :=
  (STEPS n).getD ("Unknown step " ++ Nat.repr n)

/-- `DebugLogger.__init__`: fresh session state. -/
def initLogger (request_id : String) (now : Nat) : LoggerState :=
  { request_id := request_id, start_time := now, steps := [], errors := [], steps_completed := 0 }

/-- Python truthiness of the optional error message. -/
def truthyErr : Option String → Bool
  | none => false
  | some s => s ≠ ""

/-- `DebugLogger.log_step` (`app/utils/debug_logger.py`): append a step event
carrying the elapsed milliseconds since session start; set
`steps_completed := step_number` when `status == "completed"`; append to the
parallel `errors` list when `status == "failed" and error` (truthy). -/
def log_step (st : LoggerState) (now : Nat) (step_number : Nat) (status : String)
    (details : List (String × String)) (error : Option String) : LoggerState :=
  let duration_ms := now - st.start_time
  let info : StepInfo :=
    ⟨step_number, stepName step_number, status, duration_ms, details, error⟩
  let st1 := { st with steps := st.steps ++ [info] }
  let st2 := if status = "completed" then { st1 with steps_completed := step_number } else st1
  if status = "failed" ∧ truthyErr error then
    { st2 with errors := st2.errors ++ [⟨step_number, stepName step_number, error.getD ""⟩] }
  else st2

/-- The immutable snapshot `finalize` pushes into `_recent_sessions`. -/
structure SessionSnapshot where
  request_id : String
  status : String
  total_duration_ms : Nat
  error_count : Nat
  steps : List StepInfo
  errors : List ErrorEntry
deriving DecidableEq

/-- Metadata stamping at the end of `finalize`. -/
def snapshot (st : LoggerState) (end_time : Nat) (success : Bool) : SessionSnapshot :=
  ⟨st.request_id, if success then "success" else "failed",
   end_time - st.start_time, st.errors.length, st.steps, st.errors⟩

/-- `deque(maxlen=50).append`: append on the right, evicting from the left
when the buffer already holds 50 sessions.  The list is ordered oldest
first. -/
def pushSession (buf : List SessionSnapshot) (s : SessionSnapshot) : List SessionSnapshot :=
  let b := buf ++ [s]
  if 50 < b.length then b.drop (b.length - 50) else b

/-- `DebugLogger.finalize`: stamp the metadata and push the snapshot into the
class-level ring buffer. -/
def finalize (st : LoggerState) (end_time : Nat) (success : Bool)
    (buf : List SessionSnapshot) : List SessionSnapshot :=
  pushSession buf (snapshot st end_time success)

/-- `DebugLogger.get_session_by_id`: scan the buffer (oldest first) for the
first session with the requested id. -/
def get_session_by_id (buf : List SessionSnapshot) (request_id : String) :
    Option SessionSnapshot :=
  buf.find? (fun s => s.request_id == request_id)

/-- Python `l[i:]` slice semantics: a nonnegative start drops that many
elements (clipped), a negative start counts from the right (clipped to the
whole list). -/
def pySliceFrom (l : List α) (i : Int) : List α :=
  if 0 ≤ i then l.drop i.toNat else l.drop (l.length - (-i).toNat)

/-- `DebugLogger.get_recent_sessions`: `sessions[-limit:]`. -/
def get_recent_sessions (buf : List SessionSnapshot) (limit : Int) : List SessionSnapshot :=
  pySliceFrom buf (-limit)

/-- `GET /api/debug/sessions` (`app/routers/debug.py`): cap the limit above
at 50 (no lower bound), then slice; returns the count and the sessions. -/
def get_recent_debug_sessions (buf : List SessionSnapshot) (limit : Int) :
    Nat × List SessionSnapshot :=
  let limit := if 50 < limit then 50 else limit
  let sessions := get_recent_sessions buf limit
  (sessions.length, sessions)

/-! ## Analysis orchestrator (`app/routers/swings.py`, `analyze_swing`) -/

/-- Externally visible effects of the analyze route, in order of occurrence. -/
inductive AnalyzeEvent
  | validate (position : String)
  | inference
  | persist
deriving DecidableEq

/-- The environment of one request: the outcome the external inference call
would have if it were made. -/
structure AnalyzeEnv where
  inference_result : Except String String

/-- The response body of a successful analysis. -/
structure AnalyzeResponse where
  analysis : String
  rating : Option Nat
  summary : Option String
deriving DecidableEq

/-- The `uploaded_files` dict: the four named parts in insertion order, with
absent parts filtered out. -/
def uploadedFiles (address top impact follow_through : Option Upload) :
    List (String × Upload) :=
  ([("address", address), ("top", top), ("impact", impact),
    ("follow_through", follow_through)].filterMap
      (fun p => p.2.map (fun u => (p.1, u))))

/-- The validation loop of the route: `for position, file in
uploaded_files.items(): await validate_image(file)` — the first failure
raises, aborting the loop. -/
def runValidate : List (String × Upload) → Option HttpError × List AnalyzeEvent
  | [] => (none, [])
  | (pos, u) :: rest =>
    match validate_image u with
    | some e => (some e, [.validate pos])
    | none =>
      let (r, evs) := runValidate rest
      (r, .validate pos :: evs)

/-- `POST /api/swings/analyze` (`app/routers/swings.py`): require at least
one image, validate every upload, then call the inference client, parse, and
persist.  A validation failure raises its 400 before the inference call; an
inference failure is wrapped into a 500 by the route's generic handler.
Returns the HTTP outcome and the ordered external effects. -/
def analyze_swing (address top impact follow_through : Option Upload)
    (env : AnalyzeEnv) : Except HttpError AnalyzeResponse × List AnalyzeEvent :=
  let uploaded := uploadedFiles address top impact follow_through
  if uploaded.isEmpty then
    (.error ⟨400, "At least one image is required for analysis"⟩, [])
  else
    match runValidate uploaded with
    | (some e, evs) => (.error e, evs)
    | (none, evs) =>
      match env.inference_result with
      | .error msg =>
        (.error ⟨500, "Failed to analyze swing: " ++ msg⟩, evs ++ [.inference])
      | .ok analysis_text =>
        let (rating, summary) := parse_analysis analysis_text
        (.ok ⟨analysis_text, rating, summary⟩, evs ++ [.inference, .persist])

/-! ## Specification-side definitions (for refinement comparison)

These two definitions are written from the specification's words, to be
compared against the source-derived extraction functions. -/

/-- Range filter the spec describes: keep a captured integer iff it lies in
`[1,10]`. -/
def ratingOfCapture (cap : List Char) : Option Nat :=
  let n := digitsToNat cap
  if 1 ≤ n ∧ n ≤ 10 then some n else none

/-- From the spec: "try, in order, patterns ...; take the first match whose
captured integer falls in [1,10]; a match outside that range is discarded and
the search continues with the next pattern (not the next match of the same
pattern)". -/
def ratingFirstInRange (text : String) : Option Nat :=
  (ratingSearches.filterMap (fun p => (p text.data).bind ratingOfCapture)).head?

/-- From the spec: summary patterns are tried in order and the first match
wins (before trimming and truncation). -/
def summaryFirstMatch (text : String) : Option (List Char) :=
  (summarySearches.filterMap (fun p => p text.data)).head?

/-! ## Capture lemmas: every rating capture is a nonempty digit run -/

/-- What a rating-pattern capture drawn from `l` looks like: nonempty, all
digits, and made of characters of `l`. -/
def CapOk (l cap : List Char) : Prop :=
  cap ≠ [] ∧ cap.all isDig = true ∧ ∀ c ∈ cap, c ∈ l

theorem capOk_mono {l l' cap : List Char} (h : CapOk l cap) (hsub : ∀ c ∈ l, c ∈ l') :
    CapOk l' cap :=
  ⟨h.1, h.2.1, fun c hc => hsub c (h.2.2 c hc)⟩

theorem digitBacktrack_capOk (run rest : List Char) (suffix : List Char → Bool)
    (hall : run.all isDig = true) :
    ∀ k, k ≤ run.length → ∀ cap, digitBacktrack run rest suffix k = some cap →
      CapOk (run ++ rest) cap := by
  intro k
  induction k with
  | zero => intro _ cap h; simp [digitBacktrack] at h
  | succ k ih =>
    intro hk cap h
    unfold digitBacktrack at h
    by_cases hs : suffix (run.drop (k + 1) ++ rest) = true
    · simp only [hs, if_true, Option.some.injEq] at h
      subst h
      refine ⟨?_, ?_, ?_⟩
      · intro hnil
        have hlen := congrArg List.length hnil
        rw [List.length_take] at hlen
        simp only [List.length_nil] at hlen
        omega
      · simp only [List.all_eq_true] at hall ⊢
        exact fun c hc => hall c (List.mem_of_mem_take hc)
      · exact fun c hc => List.mem_append_left _ (List.mem_of_mem_take hc)
    · simp only [hs, if_false] at h
      exact ih (Nat.le_of_succ_le hk) cap h

theorem digitPlus_capOk (suffix : List Char → Bool) (l cap : List Char)
    (h : digitPlus suffix l = some cap) : CapOk l cap := by
  unfold digitPlus at h
  have hall : (l.takeWhile isDig).all isDig = true := by
    simp only [List.all_eq_true]
    exact fun c hc => List.mem_takeWhile_imp hc
  have := digitBacktrack_capOk (l.takeWhile isDig) (l.dropWhile isDig) suffix hall
    (l.takeWhile isDig).length (Nat.le_refl _) cap h
  rwa [List.takeWhile_append_dropWhile] at this

theorem stripCI_subset (pat : List Char) :
    ∀ l l', stripCI pat l = some l' → ∀ c ∈ l', c ∈ l := by
  induction pat with
  | nil => intro l l' h c hc; simp [stripCI] at h; subst h; exact hc
  | cons p ps ih =>
    intro l l' h c hc
    cases l with
    | nil => simp [stripCI] at h
    | cons a as =>
      simp only [stripCI] at h
      by_cases he : p.toLower = a.toLower
      · simp only [he, if_true] at h
        exact List.mem_cons_of_mem a (ih as l' h c hc)
      · simp [he] at h

theorem kwThen_capOk (kw : String) (rest : List Char → Option (List Char))
    (hrest : ∀ l cap, rest l = some cap → CapOk l cap) :
    ∀ l cap, kwThen kw rest l = some cap → CapOk l cap := by
  intro l cap h
  unfold kwThen at h
  cases hs : stripCI kw.data l with
  | none => rw [hs] at h; cases h
  | some l' =>
    rw [hs] at h
    exact capOk_mono (hrest l' cap h) (stripCI_subset kw.data l l' hs)

theorem lazyStarNoNl_capOk (tail : List Char → Option (List Char))
    (htail : ∀ l cap, tail l = some cap → CapOk l cap) :
    ∀ l cap, lazyStarNoNl tail l = some cap → CapOk l cap := by
  intro l
  induction l with
  | nil => intro cap h; exact htail [] cap h
  | cons c cs ih =>
    intro cap h
    unfold lazyStarNoNl at h
    cases ht : tail (c :: cs) with
    | some r => rw [ht] at h; cases h; exact htail _ _ ht
    | none =>
      rw [ht] at h
      by_cases hc : c = '\n'
      · simp [hc] at h
      · simp only [hc, if_false] at h
        exact capOk_mono (ih cap h) (fun x hx => List.mem_cons_of_mem c hx)

theorem lazyStarAny_capOk (tail : List Char → Option (List Char))
    (htail : ∀ l cap, tail l = some cap → CapOk l cap) :
    ∀ l cap, lazyStarAny tail l = some cap → CapOk l cap := by
  intro l
  induction l with
  | nil => intro cap h; exact htail [] cap h
  | cons c cs ih =>
    intro cap h
    unfold lazyStarAny at h
    cases ht : tail (c :: cs) with
    | some r => rw [ht] at h; cases h; exact htail _ _ ht
    | none =>
      rw [ht] at h
      exact capOk_mono (ih cap h) (fun x hx => List.mem_cons_of_mem c hx)

theorem reSearch_capOk (tryAt : List Char → Option (List Char))
    (htry : ∀ l cap, tryAt l = some cap → CapOk l cap) :
    ∀ l cap, reSearch tryAt l = some cap → CapOk l cap := by
  intro l
  induction l with
  | nil => intro cap h; exact htry [] cap h
  | cons c cs ih =>
    intro cap h
    unfold reSearch at h
    cases ht : tryAt (c :: cs) with
    | some r => rw [ht] at h; cases h; exact htry _ _ ht
    | none =>
      rw [ht] at h
      exact capOk_mono (ih cap h) (fun x hx => List.mem_cons_of_mem c hx)

theorem tryAtRating1_capOk : ∀ l cap, tryAtRating1 l = some cap → CapOk l cap := by
  intro l cap h
  have hd := lazyStarNoNl_capOk (digitPlus suffixOutOf10) (digitPlus_capOk suffixOutOf10)
  unfold tryAtRating1 at h
  cases h1 : kwThen "rate" (lazyStarNoNl (digitPlus suffixOutOf10)) l with
  | some r => rw [h1] at h; cases h; exact kwThen_capOk _ _ hd l cap h1
  | none =>
    rw [h1] at h
    cases h2 : kwThen "rating" (lazyStarNoNl (digitPlus suffixOutOf10)) l with
    | some r => rw [h2] at h; cases h; exact kwThen_capOk _ _ hd l cap h2
    | none => rw [h2] at h; exact kwThen_capOk _ _ hd l cap h

theorem tryAtRating2_capOk : ∀ l cap, tryAtRating2 l = some cap → CapOk l cap :=
  fun l cap h => digitPlus_capOk _ l cap h

theorem tryAtRating3_capOk : ∀ l cap, tryAtRating3 l = some cap → CapOk l cap := by
  intro l cap h
  have hd := lazyStarNoNl_capOk (digitPlus suffixOutOf10) (digitPlus_capOk suffixOutOf10)
  unfold tryAtRating3 at h
  cases h1 : kwThen "quality" (lazyStarNoNl (digitPlus suffixOutOf10)) l with
  | some r => rw [h1] at h; cases h; exact kwThen_capOk _ _ hd l cap h1
  | none => rw [h1] at h; exact kwThen_capOk _ _ hd l cap h

theorem ratingSearches_capOk :
    ∀ p ∈ ratingSearches, ∀ l cap, p l = some cap → CapOk l cap := by
  intro p hp
  simp only [ratingSearches, List.mem_cons, List.mem_singleton] at hp
  rcases hp with h | h | h | h
  · subst h; exact reSearch_capOk _ tryAtRating1_capOk
  · subst h; exact reSearch_capOk _ tryAtRating2_capOk
  · subst h; exact reSearch_capOk _ tryAtRating3_capOk
  · cases h

/-! ## The rating loop refines the spec's first-in-range rule -/

theorem ratingLoop_eq_firstInRange (text : List Char) :
    ∀ ps : List (List Char → Option (List Char)),
      (∀ p ∈ ps, ∀ cap, p text = some cap → CapOk text cap) →
      ratingLoop text ps = .ok ((ps.filterMap (fun p => (p text).bind ratingOfCapture)).head?) := by
  intro ps
  induction ps with
  | nil => intro _; rfl
  | cons p ps ih =>
    intro hok
    have hp := hok p (List.mem_cons_self p ps)
    have hps : ∀ q ∈ ps, ∀ cap, q text = some cap → CapOk text cap :=
      fun q hq => hok q (List.mem_cons_of_mem p hq)
    unfold ratingLoop
    cases hm : p text with
    | none => simp only [hm, List.filterMap_cons, Option.none_bind]; exact ih hps
    | some cap =>
      have hcap := hp cap hm
      have hint : pyInt cap = .ok (digitsToNat cap) := by
        unfold pyInt
        rw [if_pos ⟨hcap.1, hcap.2.1⟩]
      simp only [hm, List.filterMap_cons, Option.some_bind, hint, ratingOfCapture]
      by_cases hr : 1 ≤ digitsToNat cap ∧ digitsToNat cap ≤ 10
      · simp [hr]
      · simp only [hr, if_false, if_neg hr]
        exact ih hps

theorem ratingLoop_ok (text : List Char) :
    ratingLoop text ratingSearches =
      .ok ((ratingSearches.filterMap (fun p => (p text).bind ratingOfCapture)).head?) :=
  ratingLoop_eq_firstInRange text ratingSearches (fun p hp => ratingSearches_capOk p hp text)

theorem ratingSearch_none_of_noDigit (p : List Char → Option (List Char))
    (hp : p ∈ ratingSearches) (l : List Char)
    (hnd : ∀ c ∈ l, isDig c = false) : p l = none := by
  cases h : p l with
  | none => rfl
  | some cap =>
    obtain ⟨hne, hall, hsub⟩ := ratingSearches_capOk p hp l cap h
    cases cap with
    | nil => exact absurd rfl hne
    | cons c cs =>
      simp only [List.all_eq_true] at hall
      have h1 := hall c (List.mem_cons_self c cs)
      have h2 := hnd c (hsub c (List.mem_cons_self c cs))
      rw [h1] at h2
      cases h2

/-! ## Summary lemmas -/

theorem summaryLoop_eq (text : List Char) :
    ∀ ps : List (List Char → Option (List Char)),
      summaryLoop text ps =
        ((ps.filterMap (fun p => p text)).head?).map (fun cap => truncate500 (pyStrip cap)) := by
  intro ps
  induction ps with
  | nil => rfl
  | cons p ps ih =>
    unfold summaryLoop
    cases hm : p text with
    | none => simp only [hm, List.filterMap_cons]; exact ih
    | some cap => simp [hm, List.filterMap_cons]

theorem truncate500_le (s : List Char) : (truncate500 s).length ≤ 500 := by
  have h3 : ("...".data).length = 3 := by decide
  unfold truncate500
  split
  · next h =>
    have hmin : min 497 s.length = 497 := Nat.min_eq_left (by omega)
    rw [List.length_append, List.length_take, h3, hmin]
  · next h => omega

theorem truncate500_long (s : List Char) (h : 500 < s.length) :
    truncate500 s = s.take 497 ++ "...".data ∧ (truncate500 s).length = 500 := by
  have h3 : ("...".data).length = 3 := by decide
  unfold truncate500
  rw [if_pos h]
  refine ⟨rfl, ?_⟩
  have hmin : min 497 s.length = 497 := Nat.min_eq_left (by omega)
  rw [List.length_append, List.length_take, h3, hmin]

theorem truncate500_ne_nil (s : List Char) (h : s ≠ []) : truncate500 s ≠ [] := by
  unfold truncate500
  split
  · next hlt =>
    intro hnil
    have h3 : ("...".data).length = 3 := by decide
    have hmin : min 497 s.length = 497 := Nat.min_eq_left (by omega)
    have hlen := congrArg List.length hnil
    rw [List.length_append, List.length_take, h3, hmin, List.length_nil] at hlen
    omega
  · exact h

/-- When one of the three summary patterns matches and the stripped capture
is nonempty, `parse_analysis` returns exactly the stripped, 500-capped
capture (the fallback is not consulted). -/
theorem extractSummary_of_match (text : String) (cap : List Char)
    (hm : summaryFirstMatch text = some cap) (hne : pyStrip cap ≠ []) :
    extractSummary text = some (String.mk (truncate500 (pyStrip cap))) := by
  have hl : summaryLoop text.data summarySearches = some (truncate500 (pyStrip cap)) := by
    rw [summaryLoop_eq text.data summarySearches]
    unfold summaryFirstMatch at hm
    rw [hm]
    rfl
  have hs : extractSummaryL text.data = some (truncate500 (pyStrip cap)) := by
    unfold extractSummaryL
    rw [hl]
    have := truncate500_ne_nil (pyStrip cap) hne
    simp [this]
  unfold extractSummary parse_analysis parse_analysis_exc
  rw [ratingLoop_ok text.data, hs]
  rfl

/-! ## Substring containment lemmas -/

theorem string_data_append (a b : String) : (a ++ b).data = a.data ++ b.data := by
  cases a; cases b; rfl

theorem beginsWith_self : ∀ p : List Char, beginsWith p p = true := by
  intro p
  induction p with
  | nil => rfl
  | cons c cs ih => simp [beginsWith, ih]

theorem beginsWith_append_right :
    ∀ (p l : List Char), beginsWith p l = true → ∀ t, beginsWith p (l ++ t) = true := by
  intro p
  induction p with
  | nil => intro l _ t; rfl
  | cons c cs ih =>
    intro l h t
    cases l with
    | nil => simp [beginsWith] at h
    | cons a as =>
      simp only [beginsWith, Bool.and_eq_true] at h
      simp only [List.cons_append, beginsWith, Bool.and_eq_true]
      exact ⟨h.1, ih as h.2 t⟩

theorem occursIn_nil_pat : ∀ t : List Char, occursIn [] t = true := by
  intro t
  cases t with
  | nil => rfl
  | cons c cs => simp [occursIn, beginsWith]

theorem occursIn_self (pat : List Char) : occursIn pat pat = true := by
  cases pat with
  | nil => rfl
  | cons c cs => simp [occursIn, beginsWith_self]

theorem occursIn_append_left (a : List Char) {pat l : List Char}
    (h : occursIn pat l = true) : occursIn pat (a ++ l) = true := by
  induction a with
  | nil => exact h
  | cons c cs ih => simp [occursIn, ih]

theorem occursIn_append_right {pat : List Char} :
    ∀ l, occursIn pat l = true → ∀ t, occursIn pat (l ++ t) = true := by
  intro l
  induction l with
  | nil =>
    intro h t
    cases pat with
    | nil => exact occursIn_nil_pat t
    | cons p ps => simp [occursIn, beginsWith] at h
  | cons c cs ih =>
    intro h t
    simp only [occursIn, Bool.or_eq_true] at h
    rcases h with h | h
    · simp only [List.cons_append, occursIn, Bool.or_eq_true]
      exact Or.inl (beginsWith_append_right pat (c :: cs) h t)
    · simp only [List.cons_append, occursIn, Bool.or_eq_true]
      exact Or.inr (ih h t)

theorem containsStr_self (pat : String) : containsStr pat pat = true :=
  occursIn_self pat.data

theorem containsStr_append_left (a : String) {s pat : String}
    (h : containsStr s pat = true) : containsStr (a ++ s) pat = true := by
  unfold containsStr at h ⊢
  rw [string_data_append]
  exact occursIn_append_left a.data h

theorem containsStr_append_right {s pat : String} (h : containsStr s pat = true)
    (b : String) : containsStr (s ++ b) pat = true := by
  unfold containsStr at h ⊢
  rw [string_data_append]
  exact occursIn_append_right s.data h b.data

/-- `historySection` of a single prior record, unfolded to its append
structure. -/
theorem historySection_singleton (rec : HistSwing) :
    historySection [rec] =
      "\n\nPREVIOUS SWING HISTORY:" ++ "\n" ++
      (Nat.repr 1 ++ ". Swing from " ++ strftimeBdY rec.created_at ++ ": " ++
        ratingInfo rec.rating ++ histClubInfo rec.club ++ histOutcomeInfo rec.shot_outcome) ++
      "\n" ++ ("   Summary: " ++ historySummary rec.summary) := rfl

/-! ## Claim theorems -/

/-- C1: rating extraction tries the three patterns in the fixed order and
returns the first captured integer lying in [1,10]; an out-of-range capture
discards the whole pattern (the search continues with the next pattern, not
the next match of the same one — witnessed by the 15/10-then-7/10 inputs,
where the in-range 7/10 of the same pattern is never reached); if no pattern
yields an in-range integer the rating is none.  "Rating: 8/10" yields 8, and
digit-free text yields none. -/
theorem c1_rating_extraction :
    (∀ text : String, extractRating text = ratingFirstInRange text) ∧
    extractRating "Rating: 8/10" = some 8 ∧
    extractRating "score 15/10; quality 7/10" = some 7 ∧
    extractRating "score is 15/10 but really 7/10" = none ∧
    (∀ text : String, (∀ c ∈ text.data, isDig c = false) → extractRating text = none) := by
  have heq : ∀ text : String, extractRating text = ratingFirstInRange text := by
    intro text
    unfold extractRating parse_analysis parse_analysis_exc ratingFirstInRange
    rw [ratingLoop_ok text.data]
  refine ⟨heq, by decide, by decide, by decide, ?_⟩
  intro text hnd
  rw [heq text]
  unfold ratingFirstInRange
  have : ∀ p ∈ ratingSearches, (p text.data).bind ratingOfCapture = none := by
    intro p hp
    rw [ratingSearch_none_of_noDigit p hp text.data hnd]
    rfl
  rw [List.filterMap_eq_nil_iff.mpr this]
  rfl

/-- C1 witness: the theorem applied at concrete inputs — "Rating: 8/10"
parses to 8, and a digit-free text parses to no rating. -/
theorem c1_rating_extraction_witness :
    extractRating "Rating: 8/10" = some 8 ∧
    extractRating "The swing looks smooth and balanced." = none :=
  ⟨c1_rating_extraction.2.1,
   c1_rating_extraction.2.2.2.2 "The swing looks smooth and balanced." (by decide)⟩

/-- A model response whose OVERALL ASSESSMENT section is 600 characters. -/
def sample600 : String :=
  String.mk ("OVERALL ASSESSMENT\n- ".data ++ List.replicate 600 'a' ++ "\n\n2. next".data)

set_option maxRecDepth 100000 in
/-- C2: summary extraction tries the three summary patterns in fixed order,
the first match wins and is trimmed; a trimmed match longer than 500
characters is replaced by its first 497 characters plus the "..." marker,
giving exactly 500 characters — in particular on a 600-character OVERALL
ASSESSMENT section. -/
theorem c2_summary_extraction :
    (∀ text : String, summaryLoop text.data summarySearches =
        (summaryFirstMatch text).map (fun cap => truncate500 (pyStrip cap))) ∧
    (∀ (text : String) (cap : List Char), summaryFirstMatch text = some cap →
        pyStrip cap ≠ [] →
        extractSummary text = some (String.mk (truncate500 (pyStrip cap))) ∧
        (truncate500 (pyStrip cap)).length ≤ 500 ∧
        (500 < (pyStrip cap).length →
          truncate500 (pyStrip cap) = (pyStrip cap).take 497 ++ "...".data ∧
          (truncate500 (pyStrip cap)).length = 500)) ∧
    extractSummary sample600 = some (String.mk (List.replicate 497 'a' ++ "...".data)) ∧
    (extractSummary sample600).map String.length = some 500 := by
  refine ⟨?_, ?_, by decide, by decide⟩
  · intro text
    rw [summaryLoop_eq text.data summarySearches]
    rfl
  · intro text cap hm hne
    exact ⟨extractSummary_of_match text cap hm hne, truncate500_le (pyStrip cap),
      fun hlong => truncate500_long (pyStrip cap) hlong⟩

set_option maxRecDepth 100000 in
/-- C2 witness: the theorem's conditional part applied at the concrete
600-character OVERALL ASSESSMENT input. -/
theorem c2_summary_extraction_witness :
    extractSummary sample600 = some (String.mk (truncate500 (pyStrip (List.replicate 600 'a')))) ∧
    (truncate500 (pyStrip (List.replicate 600 'a'))).length ≤ 500 ∧
    (500 < (pyStrip (List.replicate 600 'a')).length →
      truncate500 (pyStrip (List.replicate 600 'a')) =
        (pyStrip (List.replicate 600 'a')).take 497 ++ "...".data ∧
      (truncate500 (pyStrip (List.replicate 600 'a'))).length = 500) :=
  c2_summary_extraction.2.1 sample600 (List.replicate 600 'a') (by decide) (by decide)

/-! ## Ordering lemmas for the history store -/

theorem mem_insertByCreatedDesc (s : Swing) :
    ∀ l x, x ∈ insertByCreatedDesc s l → x = s ∨ x ∈ l := by
  intro l
  induction l with
  | nil =>
    intro x hx
    simp only [insertByCreatedDesc, List.mem_singleton] at hx
    exact Or.inl hx
  | cons t ts ih =>
    intro x hx
    unfold insertByCreatedDesc at hx
    by_cases hc : t.created_at ≤ s.created_at
    · rw [if_pos hc] at hx
      rcases List.mem_cons.mp hx with rfl | hx
      · exact Or.inl rfl
      · exact Or.inr hx
    · rw [if_neg hc] at hx
      rcases List.mem_cons.mp hx with rfl | hx
      · exact Or.inr (List.mem_cons_self _ _)
      · rcases ih x hx with h | h
        · exact Or.inl h
        · exact Or.inr (List.mem_cons_of_mem _ h)

theorem pairwise_insertByCreatedDesc (s : Swing) :
    ∀ l : List Swing, l.Pairwise (fun a b => b.created_at ≤ a.created_at) →
      (insertByCreatedDesc s l).Pairwise (fun a b => b.created_at ≤ a.created_at) := by
  intro l
  induction l with
  | nil => intro _; simp [insertByCreatedDesc]
  | cons t ts ih =>
    intro h
    rw [List.pairwise_cons] at h
    unfold insertByCreatedDesc
    by_cases hc : t.created_at ≤ s.created_at
    · rw [if_pos hc, List.pairwise_cons]
      refine ⟨?_, List.pairwise_cons.mpr h⟩
      intro b hb
      rcases List.mem_cons.mp hb with rfl | hb
      · exact hc
      · exact le_trans (h.1 b hb) hc
    · rw [if_neg hc, List.pairwise_cons]
      refine ⟨?_, ih h.2⟩
      intro b hb
      rcases mem_insertByCreatedDesc s ts b hb with rfl | hb
      · exact Nat.le_of_not_le hc
      · exact h.1 b hb

theorem pairwise_orderByCreatedDesc (db : List Swing) :
    (orderByCreatedDesc db).Pairwise (fun a b => b.created_at ≤ a.created_at) := by
  induction db with
  | nil => exact List.Pairwise.nil
  | cons d ds ih => exact pairwise_insertByCreatedDesc d _ ih

/-- The five-record table of the spec's listing scenario: records created in
sequence, most recent last. -/
def db5 : List Swing :=
  [⟨1, 1, none, none⟩, ⟨2, 2, none, none⟩, ⟨3, 3, none, none⟩,
   ⟨4, 4, none, none⟩, ⟨5, 5, none, none⟩]

/-! ## Ring buffer lemmas -/

theorem pushSession_suffix (buf : List SessionSnapshot) (s : SessionSnapshot) :
    List.IsSuffix (pushSession buf s) (buf ++ [s]) := by
  simp only [pushSession]
  split
  · exact List.drop_suffix _ _
  · exact List.suffix_refl _

theorem pushSession_length (buf : List SessionSnapshot) (s : SessionSnapshot)
    (h : buf.length ≤ 50) : (pushSession buf s).length = min (buf.length + 1) 50 := by
  simp only [pushSession]
  split
  · next hgt =>
    rw [List.length_drop]
    rw [List.length_append, List.length_singleton] at hgt ⊢
    omega
  · next hle =>
    rw [List.length_append, List.length_singleton] at hle ⊢
    omega

theorem isSuffix_append_right {α : Type} {l₁ l₂ : List α} (h : List.IsSuffix l₁ l₂)
    (t : List α) : List.IsSuffix (l₁ ++ t) (l₂ ++ t) := by
  obtain ⟨p, hp⟩ := h
  exact ⟨p, by rw [← hp, List.append_assoc]⟩

theorem foldl_pushSession_suffix :
    ∀ (l : List SessionSnapshot) (buf : List SessionSnapshot),
      List.IsSuffix (List.foldl pushSession buf l) (buf ++ l) := by
  intro l
  induction l with
  | nil => intro buf; rw [List.append_nil]; exact List.suffix_refl _
  | cons x xs ih =>
    intro buf
    have h1 := ih (pushSession buf x)
    have h2 := isSuffix_append_right (pushSession_suffix buf x) xs
    have h3 : (buf ++ [x]) ++ xs = buf ++ x :: xs := by simp
    rw [h3] at h2
    exact h1.trans h2

theorem foldl_pushSession_length :
    ∀ (l : List SessionSnapshot) (buf : List SessionSnapshot), buf.length ≤ 50 →
      (List.foldl pushSession buf l).length = min (buf.length + l.length) 50 := by
  intro l
  induction l with
  | nil => intro buf h; rw [List.foldl_nil, List.length_nil]; omega
  | cons x xs ih =>
    intro buf h
    have hlen := pushSession_length buf x h
    have hle : (pushSession buf x).length ≤ 50 := by omega
    rw [List.foldl_cons, ih (pushSession buf x) hle, hlen, List.length_cons]
    omega

/-- Filling the empty ring buffer with 51 sessions retains exactly the last
50. -/
theorem foldl_pushSession_51 (l : List SessionSnapshot) (h : l.length = 51) :
    List.foldl pushSession [] l = l.drop 1 := by
  have hs := foldl_pushSession_suffix l []
  rw [List.nil_append] at hs
  have hl := foldl_pushSession_length l [] (by simp)
  rw [List.length_nil, Nat.zero_add, h] at hl
  have hl50 : (List.foldl pushSession [] l).length = 50 := by omega
  have heq := List.suffix_iff_eq_drop.mp hs
  rw [hl50, h] at heq
  simpa using heq

theorem get_session_by_id_none (rid : String) (l : List SessionSnapshot)
    (h : ∀ s ∈ l, s.request_id ≠ rid) : get_session_by_id l rid = none := by
  unfold get_session_by_id
  rw [List.find?_eq_none]
  intro x hx
  simp only [beq_iff_eq]
  exact h x hx

theorem get_session_by_id_mem :
    ∀ l : List SessionSnapshot, (l.map (fun s => s.request_id)).Nodup →
      ∀ s ∈ l, get_session_by_id l s.request_id = some s := by
  intro l
  induction l with
  | nil => intro _ s hs; exact absurd hs (List.not_mem_nil s)
  | cons a as ih =>
    intro hnd s hs
    rw [List.map_cons, List.nodup_cons] at hnd
    unfold get_session_by_id
    rcases List.mem_cons.mp hs with rfl | hs'
    · rw [List.find?_cons_of_pos _ (by simp)]
    · have hne : a.request_id ≠ s.request_id := by
        intro he
        exact hnd.1 (he ▸ List.mem_map_of_mem _ hs')
      rw [List.find?_cons_of_neg _ (by simp [hne])]
      exact ih hnd.2 s hs'

/-! ## Validation lemmas for the analyze route -/

theorem validate_image_400 (u : Upload) (e : HttpError)
    (h : validate_image u = some e) : e.status_code = 400 := by
  unfold validate_image at h
  split at h
  · cases h; rfl
  · split at h
    · cases h; rfl
    · split at h
      · cases h; rfl
      · cases h

theorem validate_image_none (u : Upload) (h : validate_image u = none) :
    allowed_image_formats.contains u.content_type = true ∧
    u.size ≤ max_image_size_mb * 1024 * 1024 ∧ u.decodable = true := by
  unfold validate_image at h
  split at h
  · cases h
  · split at h
    · cases h
    · split at h
      · cases h
      · next h1 h2 h3 =>
        refine ⟨by revert h1; cases allowed_image_formats.contains u.content_type <;> simp,
          by omega, ?_⟩
        revert h3
        cases u.decodable <;> simp

theorem runValidate_err_400 :
    ∀ l e, (runValidate l).1 = some e → e.status_code = 400 := by
  intro l
  induction l with
  | nil => intro e h; simp [runValidate] at h
  | cons p rest ih =>
    intro e h
    obtain ⟨pos, u⟩ := p
    unfold runValidate at h
    cases hv : validate_image u with
    | some e' =>
      rw [hv] at h
      cases h
      exact validate_image_400 u e hv
    | none =>
      rw [hv] at h
      exact ih e h

theorem runValidate_some_of_bad :
    ∀ l : List (String × Upload),
      (∃ p ∈ l, allowed_image_formats.contains p.2.content_type = false) →
      ∃ e, (runValidate l).1 = some e := by
  intro l
  induction l with
  | nil => rintro ⟨p, hp, _⟩; exact absurd hp (List.not_mem_nil p)
  | cons q rest ih =>
    rintro ⟨p, hp, hbad⟩
    obtain ⟨pos, u⟩ := q
    unfold runValidate
    cases hv : validate_image u with
    | some e => exact ⟨e, rfl⟩
    | none =>
      have hq := validate_image_none u hv
      rcases List.mem_cons.mp hp with rfl | hrest
      · rw [hq.1] at hbad; cases hbad
      · obtain ⟨e, he⟩ := ih ⟨p, hrest, hbad⟩
        exact ⟨e, he⟩

theorem runValidate_events_validate :
    ∀ l, ∀ ev ∈ (runValidate l).2, ∃ pos, ev = AnalyzeEvent.validate pos := by
  intro l
  induction l with
  | nil => intro ev h; simp [runValidate] at h
  | cons q rest ih =>
    intro ev h
    obtain ⟨pos, u⟩ := q
    unfold runValidate at h
    cases hv : validate_image u with
    | some e =>
      rw [hv] at h
      simp only [List.mem_singleton] at h
      exact ⟨pos, h⟩
    | none =>
      rw [hv] at h
      simp only [List.mem_cons] at h
      rcases h with rfl | h
      · exact ⟨pos, rfl⟩
      · exact ih ev h

theorem runValidate_invalidFormat :
    ∀ l : List (String × Upload),
      (∀ p ∈ l, p.2.size ≤ max_image_size_mb * 1024 * 1024 ∧ p.2.decodable = true) →
      (∃ p ∈ l, allowed_image_formats.contains p.2.content_type = false) →
      (runValidate l).1 = some ⟨400, invalidFormatDetail⟩ := by
  intro l
  induction l with
  | nil => rintro _ ⟨p, hp, _⟩; exact absurd hp (List.not_mem_nil p)
  | cons q rest ih =>
    rintro hok ⟨p, hp, hbad⟩
    obtain ⟨pos, u⟩ := q
    by_cases hfmt : allowed_image_formats.contains u.content_type = true
    · have hu : u.size ≤ max_image_size_mb * 1024 * 1024 ∧ u.decodable = true :=
        hok (pos, u) (List.mem_cons_self _ _)
      have hv : validate_image u = none := by
        unfold validate_image
        rw [if_neg (not_not_intro hfmt), if_neg (by omega), if_neg (not_not_intro hu.2)]
      unfold runValidate
      rw [hv]
      have hrest : p ∈ rest := by
        rcases List.mem_cons.mp hp with rfl | h
        · rw [hfmt] at hbad; cases hbad
        · exact h
      exact ih (fun q hq => hok q (List.mem_cons_of_mem _ hq)) ⟨p, hrest, hbad⟩
    · have hv : validate_image u = some ⟨400, invalidFormatDetail⟩ := by
        unfold validate_image
        rw [if_pos (by simp [hfmt] at hfmt ⊢; exact hfmt)]
      unfold runValidate
      rw [hv]

/-- The scenario's annotation context: the route's dict with all four fields
absent. -/
def emptyCtx : AnnotationContext := ⟨none, none, none, none⟩

/-- Anything contained in the history section is contained in the prompt. -/
theorem prompt_contains_of_histSec (positions : List String) (ctx : Option AnnotationContext)
    (history : List HistSwing) (pat : String)
    (h : containsStr (historySection history) pat = true) :
    containsStr (build_analysis_prompt positions ctx history) pat = true := by
  simp only [build_analysis_prompt]
  apply containsStr_append_right
  apply containsStr_append_right
  apply containsStr_append_right
  apply containsStr_append_right
  apply containsStr_append_right
  apply containsStr_append_left
  exact h

/-- Anything contained in the comparison instructions is contained in the
prompt. -/
theorem prompt_contains_of_comp (positions : List String) (ctx : Option AnnotationContext)
    (history : List HistSwing) (pat : String)
    (h : containsStr (comparisonInstructions history) pat = true) :
    containsStr (build_analysis_prompt positions ctx history) pat = true := by
  simp only [build_analysis_prompt]
  apply containsStr_append_right
  apply containsStr_append_left
  exact h

set_option maxRecDepth 100000 in
/-- C4: for every positions list and annotation context, the prompt is the
text before the progression slot, the progression slot, and the closing text;
the slot is empty iff the prior history is empty, and for non-empty history
it carries the fifth "5. PROGRESSION ANALYSIS" section, so the prompt
contains "PROGRESSION" whenever history is non-empty; the four numbered
sections are present for every input; any single prior record's date and
rating (or "Not rated") are rendered into the prompt for every positions list
and context; and in the spec's scenario (one "address" image, no annotation)
the prompt contains "PROGRESSION" iff history is non-empty — in particular
with empty history no progression text occurs at all. -/
theorem c4_progression_section :
    (∀ (positions : List String) (ctx : Option AnnotationContext) (history : List HistSwing),
      build_analysis_prompt positions ctx history =
        promptBeforeProgression positions ctx history ++
          comparisonInstructions history ++ promptClosing) ∧
    (∀ history : List HistSwing, comparisonInstructions history = "" ↔ history = []) ∧
    (∀ history : List HistSwing, history ≠ [] →
      containsStr (comparisonInstructions history) "5. PROGRESSION ANALYSIS" = true) ∧
    (∀ (positions : List String) (ctx : Option AnnotationContext) (history : List HistSwing),
      history ≠ [] →
      containsStr (build_analysis_prompt positions ctx history) "PROGRESSION" = true) ∧
    (∀ (positions : List String) (ctx : Option AnnotationContext) (history : List HistSwing),
      containsStr (build_analysis_prompt positions ctx history) "1. OVERALL ASSESSMENT" = true ∧
      containsStr (build_analysis_prompt positions ctx history) "2. POSITION ANALYSIS" = true ∧
      containsStr (build_analysis_prompt positions ctx history) "3. SPECIFIC ISSUES" = true ∧
      containsStr (build_analysis_prompt positions ctx history) "4. RECOMMENDATIONS" = true) ∧
    (∀ (positions : List String) (ctx : Option AnnotationContext) (rec : HistSwing),
      containsStr (build_analysis_prompt positions ctx [rec])
        (strftimeBdY rec.created_at) = true ∧
      containsStr (build_analysis_prompt positions ctx [rec])
        (ratingInfo rec.rating) = true) ∧
    (∀ history : List HistSwing,
      containsStr (build_analysis_prompt ["address"] (some emptyCtx) history) "PROGRESSION" = true
        ↔ history ≠ []) ∧
    (containsStr (build_analysis_prompt ["address"] (some emptyCtx) []) "5. PROGRESSION" = false ∧
     containsStr (build_analysis_prompt ["address"] (some emptyCtx) []) "PROGRESSION" = false) := by
  refine ⟨fun _ _ _ => rfl, ?_, ?_, ?_, ?_, ?_, ?_, by decide, by decide⟩
  · intro history
    cases history with
    | nil => simp [comparisonInstructions]
    | cons h t =>
      simp only [comparisonInstructions]
      constructor
      · intro he
        exact absurd he (by decide)
      · intro hc
        exact absurd hc (List.cons_ne_nil h t)
  · intro history hne
    cases history with
    | nil => exact absurd rfl hne
    | cons h t =>
      simp only [comparisonInstructions]
      decide
  · intro positions ctx history hne
    cases history with
    | nil => exact absurd rfl hne
    | cons h t =>
      apply prompt_contains_of_comp
      simp only [comparisonInstructions]
      decide
  · intro positions ctx history
    refine ⟨?_, ?_, ?_, ?_⟩
    · simp only [build_analysis_prompt]
      apply containsStr_append_right
      apply containsStr_append_right
      apply containsStr_append_right
      apply containsStr_append_right
      apply containsStr_append_left
      decide
    · simp only [build_analysis_prompt]
      apply containsStr_append_right
      apply containsStr_append_right
      apply containsStr_append_right
      apply containsStr_append_right
      apply containsStr_append_left
      decide
    · simp only [build_analysis_prompt]
      apply containsStr_append_right
      apply containsStr_append_right
      apply containsStr_append_left
      decide
    · simp only [build_analysis_prompt]
      apply containsStr_append_right
      apply containsStr_append_right
      apply containsStr_append_left
      decide
  · intro positions ctx rec
    constructor
    · apply prompt_contains_of_histSec
      rw [historySection_singleton]
      apply containsStr_append_right
      apply containsStr_append_right
      apply containsStr_append_left
      apply containsStr_append_right
      apply containsStr_append_right
      apply containsStr_append_right
      apply containsStr_append_right
      apply containsStr_append_left
      exact containsStr_self _
    · apply prompt_contains_of_histSec
      rw [historySection_singleton]
      apply containsStr_append_right
      apply containsStr_append_right
      apply containsStr_append_left
      apply containsStr_append_right
      apply containsStr_append_right
      apply containsStr_append_left
      exact containsStr_self _
  · intro history
    constructor
    · intro hc heq
      subst heq
      revert hc
      decide
    · intro hne
      cases history with
      | nil => exact absurd rfl hne
      | cons h t =>
        apply prompt_contains_of_comp
        simp only [comparisonInstructions]
        decide

set_option maxRecDepth 100000 in
/-- C4 witness: the theorem applied at concrete inputs — the scenario prompt
with empty history has no progression text; with one prior record (March 05,
2024, rating 7) the progression section, the record's date and its rating all
appear; the empty slot, the section header, and the general containments are
exercised at a second positions/context point ("top"+"impact", no context
dict). -/
theorem c4_progression_section_witness :
    containsStr (build_analysis_prompt ["address"] (some emptyCtx) []) "PROGRESSION" = false ∧
    containsStr (build_analysis_prompt ["address"] (some emptyCtx)
      [⟨⟨2024, 3, 5⟩, some 7, none, none, none⟩]) "PROGRESSION" = true ∧
    containsStr (build_analysis_prompt ["address"] (some emptyCtx)
      [⟨⟨2024, 3, 5⟩, some 7, none, none, none⟩]) (strftimeBdY ⟨2024, 3, 5⟩) = true ∧
    containsStr (build_analysis_prompt ["address"] (some emptyCtx)
      [⟨⟨2024, 3, 5⟩, some 7, none, none, none⟩]) (ratingInfo (some 7)) = true ∧
    comparisonInstructions ([] : List HistSwing) = "" ∧
    containsStr (comparisonInstructions [⟨⟨2024, 3, 5⟩, some 7, none, none, none⟩])
      "5. PROGRESSION ANALYSIS" = true ∧
    containsStr (build_analysis_prompt ["top", "impact"] none
      [⟨⟨2024, 3, 5⟩, some 7, none, none, none⟩]) "PROGRESSION" = true ∧
    containsStr (build_analysis_prompt ["top", "impact"] none []) "1. OVERALL ASSESSMENT" = true := by
  have hslot := c4_progression_section.2.1
  have hhdr := c4_progression_section.2.2.1
  have hgen := c4_progression_section.2.2.2.1
  have hfour := c4_progression_section.2.2.2.2.1
  have hrec := c4_progression_section.2.2.2.2.2.1 ["address"] (some emptyCtx)
    ⟨⟨2024, 3, 5⟩, some 7, none, none, none⟩
  have hiff := c4_progression_section.2.2.2.2.2.2.1
  have habs := c4_progression_section.2.2.2.2.2.2.2
  exact ⟨habs.2, (hiff [⟨⟨2024, 3, 5⟩, some 7, none, none, none⟩]).mpr (by simp),
    hrec.1, hrec.2, (hslot []).mpr rfl,
    hhdr [⟨⟨2024, 3, 5⟩, some 7, none, none, none⟩] (by simp),
    hgen ["top", "impact"] none [⟨⟨2024, 3, 5⟩, some 7, none, none, none⟩] (by simp),
    (hfour ["top", "impact"] none []).1⟩

deriving instance DecidableEq for Except

/-- C5 counterexample: a request whose second upload has a disallowed
content-type but whose first upload is oversized fails with the TooLarge
detail, not the InvalidFormat one — the claim's "fails with the InvalidFormat
client error" does not hold of every such request. -/
theorem c5_counterexample :
    (analyze_swing (some ⟨"image/jpeg", 6 * 1024 * 1024, true⟩)
        (some ⟨"image/gif", 100, true⟩) none none ⟨.ok "analysis"⟩).1 =
      .error ⟨400, tooLargeDetail (6 * 1024 * 1024)⟩ ∧
    allowed_image_formats.contains "image/gif" = false ∧
    tooLargeDetail (6 * 1024 * 1024) ≠ invalidFormatDetail := by decide

/-- C5 (amended): a request containing an upload with a content-type outside
the allow-list fails with an HTTP 400 validation error and the inference call
is never made; the error is the InvalidFormat one whenever every upload
passes the size and decodability checks (an upload failing those earlier in
upload order yields its own 400 instead). -/
theorem c5_validation_short_circuits :
    ∀ (address top impact follow_through : Option Upload) (env : AnalyzeEnv),
      (∃ p ∈ uploadedFiles address top impact follow_through,
        allowed_image_formats.contains p.2.content_type = false) →
      (∃ e : HttpError,
        (analyze_swing address top impact follow_through env).1 = .error e ∧
        e.status_code = 400) ∧
      AnalyzeEvent.inference ∉ (analyze_swing address top impact follow_through env).2 ∧
      ((∀ p ∈ uploadedFiles address top impact follow_through,
          p.2.size ≤ max_image_size_mb * 1024 * 1024 ∧ p.2.decodable = true) →
        (analyze_swing address top impact follow_through env).1 =
          .error ⟨400, invalidFormatDetail⟩) := by
  intro address top impact follow_through env hbad
  obtain ⟨e, he⟩ := runValidate_some_of_bad _ hbad
  have hne : (uploadedFiles address top impact follow_through).isEmpty = false := by
    obtain ⟨p, hp, _⟩ := hbad
    cases hu : uploadedFiles address top impact follow_through with
    | nil => rw [hu] at hp; exact absurd hp (List.not_mem_nil p)
    | cons a as => rfl
  obtain ⟨r, evs, hrv⟩ : ∃ r evs, runValidate (uploadedFiles address top impact follow_through) =
      (r, evs) := ⟨_, _, rfl⟩
  have hr : r = some e := by rw [hrv] at he; exact he
  subst hr
  have hana : analyze_swing address top impact follow_through env = (.error e, evs) := by
    unfold analyze_swing
    simp only [hne, hrv, Bool.false_eq_true, if_false]
  refine ⟨⟨e, by rw [hana], runValidate_err_400 _ e he⟩, ?_, ?_⟩
  · rw [hana]
    intro hmem
    obtain ⟨pos, hpos⟩ := runValidate_events_validate _ AnalyzeEvent.inference (by
      rw [hrv]; exact hmem)
    cases hpos
  · intro hok
    have hinv := runValidate_invalidFormat _ hok hbad
    rw [hrv] at hinv
    simp only at hinv
    injection hinv with hinv
    subst hinv
    rw [hana]

/-- C5 witness: the amended theorem applied at a single GIF upload — the
request fails with InvalidFormat and no inference event occurs. -/
theorem c5_validation_short_circuits_witness :
    (analyze_swing (some ⟨"image/gif", 100, true⟩) none none none ⟨.ok "analysis"⟩).1 =
      .error ⟨400, invalidFormatDetail⟩ ∧
    AnalyzeEvent.inference ∉
      (analyze_swing (some ⟨"image/gif", 100, true⟩) none none none ⟨.ok "analysis"⟩).2 := by
  have h := c5_validation_short_circuits (some ⟨"image/gif", 100, true⟩) none none none
    ⟨.ok "analysis"⟩ ⟨("address", ⟨"image/gif", 100, true⟩), by decide, by decide⟩
  exact ⟨h.2.2 (by decide), h.2.1⟩

/-- C6: the caller-supplied limit is clamped to [1,100] (above 100 becomes
100, below 1 becomes 1); the returned records are the creation-time
descending ordering of the table with the first `offset` records skipped and
at most the clamped limit returned; after creating 5 records, limit=2 and
offset=1 return exactly the 4th and 3rd most recent records. -/
theorem c6_history_listing :
    (∀ limit : Int, 1 ≤ clampLimit limit ∧ clampLimit limit ≤ 100) ∧
    (∀ limit : Int, 100 < limit → clampLimit limit = 100) ∧
    (∀ limit : Int, limit < 1 → clampLimit limit = 1) ∧
    (∀ (db : List Swing) (limit : Int) (offset : Nat),
      get_swing_history db limit offset =
        ((orderByCreatedDesc db).drop offset).take (clampLimit limit).toNat) ∧
    (∀ (db : List Swing) (limit : Int) (offset : Nat),
      (get_swing_history db limit offset).Pairwise
        (fun a b => b.created_at ≤ a.created_at)) ∧
    (get_swing_history db5 2 1).map (fun s => s.id) = [4, 3] := by
  refine ⟨?_, ?_, ?_, fun _ _ _ => rfl, ?_, by decide⟩
  · intro limit
    simp only [clampLimit]
    split <;> (try split) <;> omega
  · intro limit h
    simp only [clampLimit]
    split <;> (try split) <;> omega
  · intro limit h
    simp only [clampLimit]
    split <;> (try split) <;> omega
  · intro db limit offset
    have hsub : List.Sublist (get_swing_history db limit offset) (orderByCreatedDesc db) :=
      ((List.take_sublist _ _).trans (List.drop_sublist _ _))
    exact (pairwise_orderByCreatedDesc db).sublist hsub

/-- C6 witness: the clamping parts of the theorem applied at concrete
limits 200 and -7. -/
theorem c6_history_listing_witness :
    clampLimit 200 = 100 ∧ clampLimit (-7) = 1 ∧
    1 ≤ clampLimit 50 ∧ clampLimit 50 ≤ 100 :=
  ⟨c6_history_listing.2.1 200 (by decide), c6_history_listing.2.2.1 (-7) (by decide),
   (c6_history_listing.1 50).1, (c6_history_listing.1 50).2⟩

/-- C7: finalizing 51 sessions with distinct identifiers into the empty ring
buffer evicts the oldest: the first session is no longer retrievable by its
identifier, while each of the 50 most recent remains retrievable (returning
its own finalized snapshot). -/
theorem c7_ring_buffer_eviction :
    ∀ (entries : List (LoggerState × Nat × Bool)) (e0 : LoggerState × Nat × Bool)
      (rest : List (LoggerState × Nat × Bool)),
      entries = e0 :: rest → entries.length = 51 →
      (entries.map (fun e => e.1.request_id)).Nodup →
      get_session_by_id
        (entries.foldl (fun buf e => finalize e.1 e.2.1 e.2.2 buf) []) e0.1.request_id = none ∧
      ∀ e ∈ rest,
        get_session_by_id (entries.foldl (fun buf e => finalize e.1 e.2.1 e.2.2 buf) [])
          e.1.request_id = some (snapshot e.1 e.2.1 e.2.2) := by
  intro entries e0 rest hcons hlen hnd
  have hfold : entries.foldl (fun buf e => finalize e.1 e.2.1 e.2.2 buf) [] =
      List.foldl pushSession [] (entries.map (fun e => snapshot e.1 e.2.1 e.2.2)) := by
    rw [List.foldl_map]
    rfl
  have hmaplen : (entries.map (fun e => snapshot e.1 e.2.1 e.2.2)).length = 51 := by
    rw [List.length_map]; exact hlen
  have hdrop := foldl_pushSession_51 _ hmaplen
  have hbuf : entries.foldl (fun buf e => finalize e.1 e.2.1 e.2.2 buf) [] =
      rest.map (fun e => snapshot e.1 e.2.1 e.2.2) := by
    rw [hfold, hdrop, hcons, List.map_cons, List.drop_one, List.tail_cons]
  have hids : (entries.map (fun e => e.1.request_id)) =
      (entries.map (fun e => snapshot e.1 e.2.1 e.2.2)).map (fun s => s.request_id) := by
    rw [List.map_map]
    rfl
  rw [hcons, List.map_cons, List.nodup_cons] at hnd
  constructor
  · rw [hbuf]
    apply get_session_by_id_none
    intro s hsmem
    obtain ⟨e, hemem, rfl⟩ := List.mem_map.mp hsmem
    intro he
    exact hnd.1 (he ▸ List.mem_map_of_mem (fun e => e.1.request_id) hemem)
  · intro e hemem
    rw [hbuf]
    have : get_session_by_id (rest.map (fun e => snapshot e.1 e.2.1 e.2.2))
        ((snapshot e.1 e.2.1 e.2.2).request_id) = some (snapshot e.1 e.2.1 e.2.2) := by
      apply get_session_by_id_mem
      · rw [List.map_map]
        exact hnd.2
      · exact List.mem_map_of_mem _ hemem
    exact this

/-- 51 sessions with distinct request identifiers, oldest first. -/
def c7Entries : List (LoggerState × Nat × Bool) :=
  (List.range 51).map (fun i => (initLogger ("req" ++ Nat.repr i) 0, 5, true))

set_option maxRecDepth 100000 in
/-- C7 witness: the theorem applied at 51 concrete sessions "req0".."req50" —
"req0" is evicted while "req1" remains retrievable. -/
theorem c7_ring_buffer_eviction_witness :
    get_session_by_id (c7Entries.foldl (fun buf e => finalize e.1 e.2.1 e.2.2 buf) [])
      "req0" = none ∧
    get_session_by_id (c7Entries.foldl (fun buf e => finalize e.1 e.2.1 e.2.2 buf) [])
      "req1" = some (snapshot (initLogger "req1" 0) 5 true) := by
  have h := c7_ring_buffer_eviction c7Entries (initLogger "req0" 0, 5, true)
    ((List.range 50).map (fun i => (initLogger ("req" ++ Nat.repr (i + 1)) 0, 5, true)))
    (by decide) (by decide) (by decide)
  exact ⟨h.1, h.2 (initLogger "req1" 0, 5, true) (by decide)⟩

/-- C8: `create_thumbnail` never raises — on any decode or resize failure it
returns the original base64 input unchanged, and only on success does it
return the re-encoded downscaled image. -/
theorem c8_thumbnail_degrades :
    ∀ (env : ThumbEnv) (s : String),
      (∀ e, env.decode s >>= env.resizeEncode = .error e → create_thumbnail env s = s) ∧
      (∀ t, env.decode s >>= env.resizeEncode = .ok t → create_thumbnail env s = t) := by
  intro env s
  constructor
  · intro e he
    unfold create_thumbnail
    rw [he]
  · intro t ht
    unfold create_thumbnail
    rw [ht]

/-- Image operations for a corrupt payload: PIL cannot identify the image. -/
def corruptEnv : ThumbEnv :=
  ⟨fun _ => .error "cannot identify image file", fun i => .ok i⟩

/-- C8 witness: the theorem applied at a corrupt payload — the original
string comes back unchanged. -/
theorem c8_thumbnail_degrades_witness :
    create_thumbnail corruptEnv "corrupt-bytes" = "corrupt-bytes" :=
  (c8_thumbnail_degrades corruptEnv "corrupt-bytes").1 "cannot identify image file" rfl

/-- C9 counterexample: a step logged with status "failed" but no error
message appends the step event yet leaves the parallel error list empty —
the claim's "whenever status is failed the step is also appended to the
error list (with whatever error message, if any, was supplied)" fails when
no message is supplied. -/
theorem c9_counterexample :
    (log_step (initLogger "r" 0) 5 7 "failed" [] none).errors = [] ∧
    (log_step (initLogger "r" 0) 5 7 "failed" [] none).steps =
      [⟨7, stepName 7, "failed", 5, [], none⟩] := by decide

/-- C9 (amended): `log_step` appends an event carrying the elapsed
milliseconds from session start; on status "completed" it sets the
last-completed-step counter to the given step number; on status "failed"
with a non-empty error message it also appends to the parallel error list; a
failed step whose error is absent or empty leaves the error list
unchanged. -/
theorem c9_log_step_behaviour :
    ∀ (st : LoggerState) (now n : Nat) (status : String)
      (details : List (String × String)) (error : Option String),
      (log_step st now n status details error).steps =
        st.steps ++ [⟨n, stepName n, status, now - st.start_time, details, error⟩] ∧
      (status = "completed" → (log_step st now n status details error).steps_completed = n) ∧
      (status = "failed" → truthyErr error = true →
        (log_step st now n status details error).errors =
          st.errors ++ [⟨n, stepName n, error.getD ""⟩]) ∧
      (truthyErr error = false →
        (log_step st now n status details error).errors = st.errors) := by
  intro st now n status details error
  refine ⟨?_, ?_, ?_, ?_⟩
  · unfold log_step
    by_cases h1 : status = "completed" <;>
      by_cases h2 : status = "failed" ∧ truthyErr error = true <;> simp [h1, h2]
  · intro hc
    unfold log_step
    by_cases h2 : status = "failed" ∧ truthyErr error = true <;> simp [hc, h2]
  · intro hf ht
    unfold log_step
    have h2 : status = "failed" ∧ truthyErr error = true := ⟨hf, ht⟩
    by_cases h1 : status = "completed"
    · rw [hf] at h1
      exact absurd h1 (by decide)
    · simp [h1, h2]
  · intro hte
    unfold log_step
    have h2 : ¬(status = "failed" ∧ truthyErr error = true) := by simp [hte]
    by_cases h1 : status = "completed" <;> simp [h1, h2]

/-- C9 witness: the amended theorem applied concretely — a completed step
updates the counter to 7, and a failed step with message "boom" is appended
to the error list. -/
theorem c9_log_step_behaviour_witness :
    (log_step (initLogger "r" 0) 5 7 "completed" [] none).steps_completed = 7 ∧
    (log_step (initLogger "r" 0) 9 3 "failed" [] (some "boom")).errors =
      [⟨3, stepName 3, "boom"⟩] := by
  have h1 := c9_log_step_behaviour (initLogger "r" 0) 5 7 "completed" [] none
  have h2 := c9_log_step_behaviour (initLogger "r" 0) 9 3 "failed" [] (some "boom")
  refine ⟨h1.2.1 rfl, ?_⟩
  have he := h2.2.2.1 rfl (by decide)
  simpa using he

/-- C10: requesting recent trace sessions with limit=0 returns every retained
session, not zero sessions — `sessions[-limit:]` with `-0 = 0` is the whole
list — and the HTTP route caps only limits above 50, enforcing no lower
bound. -/
theorem c10_trace_limit_zero :
    ∀ buf : List SessionSnapshot,
      get_recent_sessions buf 0 = buf ∧
      get_recent_debug_sessions buf 0 = (buf.length, buf) ∧
      (∀ limit : Int, 50 < limit →
        get_recent_debug_sessions buf limit = get_recent_debug_sessions buf 50) ∧
      (∀ limit : Int, limit ≤ 50 →
        get_recent_debug_sessions buf limit =
          ((get_recent_sessions buf limit).length, get_recent_sessions buf limit)) := by
  intro buf
  have hslice : get_recent_sessions buf 0 = buf := by
    unfold get_recent_sessions pySliceFrom
    norm_num
  refine ⟨hslice, ?_, ?_, ?_⟩
  · have h0 : ¬ ((50 : Int) < 0) := by decide
    simp [get_recent_debug_sessions, h0, hslice]
  · intro limit hlim
    simp only [get_recent_debug_sessions]
    rw [if_pos hlim, if_neg (by decide)]
  · intro limit hlim
    simp only [get_recent_debug_sessions]
    rw [if_neg (by omega)]

/-- C10 witness: the theorem applied at a concrete one-session buffer and at
the capped limit 60. -/
theorem c10_trace_limit_zero_witness :
    get_recent_debug_sessions [snapshot (initLogger "a" 0) 1 true] 0 =
      (1, [snapshot (initLogger "a" 0) 1 true]) ∧
    get_recent_debug_sessions [snapshot (initLogger "a" 0) 1 true] 60 =
      get_recent_debug_sessions [snapshot (initLogger "a" 0) 1 true] 50 :=
  ⟨(c10_trace_limit_zero [snapshot (initLogger "a" 0) 1 true]).2.1,
   (c10_trace_limit_zero [snapshot (initLogger "a" 0) 1 true]).2.2.1 60 (by decide)⟩

/-- C3: the result parser never propagates an exception — for every input
the fallible body (`parse_analysis_exc`, in which Python's `int()` is the
only fallible primitive) returns `ok`, and `parse_analysis` returns its
value; the `except` handler (which would yield `(none, none)`, both locals
still being `None` at the only fallible operation) is never exercised. -/
theorem c3_parse_never_raises :
    ∀ text : String, ∃ v, parse_analysis_exc text.data = .ok v ∧
      parse_analysis text = (v.1, v.2.map (fun l => String.mk l)) := by
  intro text
  refine ⟨((ratingSearches.filterMap (fun p => (p text.data).bind ratingOfCapture)).head?,
    extractSummaryL text.data), ?_, ?_⟩
  · unfold parse_analysis_exc
    rw [ratingLoop_ok text.data]
  · unfold parse_analysis parse_analysis_exc
    rw [ratingLoop_ok text.data]

end GolfCoach

